import Mathlib

/-!
Verification of the Student Report Card Manager (`Student_Report_Card_Manager.py`).

Shallow embedding conventions:
* Python `dict[str, float]` is modelled as an insertion-ordered association
  list `List (String × ℚ)` with unique keys; updating an existing key keeps
  its position, a new key is appended (CPython dict semantics).
* Python `float` scores are modelled as exact rationals `ℚ`.
* Python `str.strip()` is modelled by `pyStrip`.
* A method that can raise returns an `Except`; state-mutating methods return
  the post-call state of the object explicitly.  A raise inside a method
  leaves `self` exactly as it was unless a field assignment already ran.
* The file system is modelled by the value read from / written to the JSON
  file: `save` returns the serialized array, `load` consumes
  `Option (List StudentRepr)` where `none` is a nonexistent file.
-/

/-- Python `str.strip()`: drops leading and trailing whitespace. -/
def String.pyStrip (s : String) : String :=
  ⟨((s.data.dropWhile Char.isWhitespace).reverse.dropWhile Char.isWhitespace).reverse⟩

deriving instance DecidableEq for Except

/-- Python `dict` update `m[k] = v` on an insertion-ordered association list:
overwrite in place if the key is present, else append at the end. -/
def dictSet (m : List (String × ℚ)) (k : String) (v : ℚ) : List (String × ℚ) :=
  match m with
  | [] => [(k, v)]
  | (k', v') :: rest => if k' = k then (k', v) :: rest else (k', v') :: dictSet rest k v

/-- Python `dict` lookup `m.get(k)`. -/
def dictGet (m : List (String × ℚ)) (k : String) : Option ℚ :=
  match m with
  | [] => none
  | (k', v) :: rest => if k' = k then some v else dictGet rest k

/-- The `Student` class: id, display name, subject→score mapping. -/
structure Student where
  id : Int
  name : String
  subjects : List (String × ℚ)
deriving DecidableEq, Repr

/-- `Student.__init__(student_id, name)`: stores the id, the stripped name,
and an empty subject map. -/
def Student.init (student_id : Int) (name : String) : Student :=
  { id := student_id, name := name.pyStrip, subjects := [] }

/-- A score accepted by `set_score`: `0 <= score <= 100`. -/
def validScore (score : ℚ) : Prop := 0 ≤ score ∧ score ≤ 100

instance : DecidablePred validScore := fun s => by unfold validScore; infer_instance

/-- `Student.set_score(subject, score)`: raises `ValueError` ("Score must be
between 0 and 100.") when the score is outside `[0, 100]`, otherwise stores
the score under the stripped subject key. -/
def Student.set_score (stu : Student) (subject : String) (score : ℚ) :
    Except String Student :=
  if ¬ (0 ≤ score ∧ score ≤ 100) then
    .error "Score must be between 0 and 100."
  else
    .ok { stu with subjects := dictSet stu.subjects subject.pyStrip score }

/-- `Student.average()`: `0.0` when there are no subjects, otherwise
`sum(scores) / len(scores)`. -/
def Student.average (stu : Student) : ℚ :=
  if stu.subjects = [] then 0
  else (stu.subjects.map Prod.snd).sum / (stu.subjects.length : ℚ)

/-- `Student.grade()`: the letter band of `average()`. -/
def Student.grade (stu : Student) : String :=
  if stu.average ≥ 90 then "A"
  else if stu.average ≥ 75 then "B"
  else if stu.average ≥ 50 then "C"
  else "Fail"

/-- The JSON object shape produced by `to_dict` and consumed by `from_dict`;
`subjects` is optional because `from_dict` uses `data.get("subjects", {})`. -/
structure StudentRepr where
  id : Int
  name : String
  subjects : Option (List (String × ℚ))
deriving DecidableEq, Repr

/-- `Student.to_dict()`: `{"id": id, "name": name, "subjects": subjects}`. -/
def Student.to_dict (stu : Student) : StudentRepr :=
  { id := stu.id, name := stu.name, subjects := some stu.subjects }

/-- `Student.from_dict(data)`: builds `Student(data["id"], data["name"])`
(which strips the name again) and then assigns
`stu.subjects = data.get("subjects", {})`. -/
def Student.from_dict (d : StudentRepr) : Student :=
  { Student.init d.id d.name with subjects := d.subjects.getD [] }

/-- The `GradeManager` class: the ordered student list and the `_next_id`
counter (initialized to 1). -/
structure GradeManager where
  students : List Student
  next_id : Int
deriving DecidableEq, Repr

/-- `GradeManager.__init__()`: empty list, `_next_id = 1`. -/
def GradeManager.init : GradeManager :=
  { students := [], next_id := 1 }

/-- The `for sub, sc in scores.items(): stu.set_score(sub, sc)` loop of
`add_student`.  On a raise the exception propagates; the error value carries
the local `Student` object as it stands at the raise point, so that the
partially-applied scores it holds can be talked about. -/
def buildStudent (stu : Student) (scores : List (String × ℚ)) :
    Except (String × Student) Student :=
  match scores with
  | [] => .ok stu
  | (sub, sc) :: rest =>
    match stu.set_score sub sc with
    | .error e => .error (e, stu)
    | .ok s => buildStudent s rest

/-- `GradeManager.add_student(name, scores)`: builds `Student(self._next_id,
name)`, applies `set_score` for each entry, then appends the student and
increments `_next_id`.  The result pairs the post-call manager state with the
outcome; when the score loop raises, `self.students` and `self._next_id` were
not yet touched, so the manager is returned unchanged. -/
def GradeManager.add_student (gm : GradeManager) (name : String)
    (scores : List (String × ℚ)) :
    GradeManager × Except (String × Student) Student :=
  match buildStudent (Student.init gm.next_id name) scores with
  | .error ep => (gm, .error ep)
  | .ok stu =>
    ({ students := gm.students ++ [stu], next_id := gm.next_id + 1 }, .ok stu)

/-- `GradeManager.find(student_id)`: first student with a matching id, if any. -/
def GradeManager.find (gm : GradeManager) (student_id : Int) : Option Student :=
  gm.students.find? (fun s => s.id == student_id)

/-- `GradeManager.delete(student_id)`: keeps the students whose id differs and
reports whether the list shrank. -/
def GradeManager.delete (gm : GradeManager) (student_id : Int) :
    GradeManager × Bool :=
  let remaining := gm.students.filter (fun s => s.id ≠ student_id)
  ({ gm with students := remaining },
   decide (remaining.length < gm.students.length))

/-- `GradeManager.save(file)`: the JSON array written out,
`[s.to_dict() for s in self.students]`. -/
def GradeManager.save (gm : GradeManager) : List StudentRepr :=
  gm.students.map Student.to_dict

/-- `GradeManager.load(file)`: on a nonexistent file (`none`) prints a notice
and returns with `self` untouched; otherwise replaces `self.students` with the
deserialized records and, when the list is nonempty, sets `_next_id` to
`max(s.id for s in self.students) + 1`. -/
def GradeManager.load (gm : GradeManager) (file : Option (List StudentRepr)) :
    GradeManager :=
  match file with
  | none => gm
  | some data =>
    match data.map Student.from_dict with
    | [] => { students := [], next_id := gm.next_id }
    | s :: ss =>
      { students := s :: ss, next_id := (ss.map Student.id).foldl max s.id + 1 }

/-- Unconditional application of a list of subject/score entries to a student,
in order; used to characterise the state `set_score` leaves behind over a
prefix of valid entries. -/
def applyValid (stu : Student) (scores : List (String × ℚ)) : Student :=
  scores.foldl (fun s kv => { s with subjects := dictSet s.subjects kv.1.pyStrip kv.2 }) stu

/-- The state of `self` after a `set_score` call, raised or not: the `raise`
happens before the assignment, so a raising call leaves `self` unchanged. -/
def Student.set_score_state (stu : Student) (subject : String) (score : ℚ) : Student :=
  match stu.set_score subject score with
  | .error _ => stu
  | .ok s' => s'

theorem set_score_of_valid (stu : Student) (subject : String) (score : ℚ)
    (h : validScore score) :
    stu.set_score subject score =
      .ok { stu with subjects := dictSet stu.subjects subject.pyStrip score } := by
  unfold validScore at h
  unfold Student.set_score
  rw [if_neg (not_not_intro h)]

theorem set_score_of_invalid (stu : Student) (subject : String) (score : ℚ)
    (h : ¬ validScore score) :
    stu.set_score subject score = .error "Score must be between 0 and 100." := by
  unfold validScore at h
  unfold Student.set_score
  rw [if_pos h]

theorem dictGet_dictSet_self (m : List (String × ℚ)) (k : String) (v : ℚ) :
    dictGet (dictSet m k v) k = some v := by
  induction m with
  | nil => simp [dictSet, dictGet]
  | cons hd tl ih =>
    obtain ⟨k', v'⟩ := hd
    by_cases hk : k' = k
    · simp [dictSet, dictGet, hk]
    · simp [dictSet, dictGet, hk, ih]

theorem dictGet_dictSet_ne (m : List (String × ℚ)) (k k' : String) (v : ℚ)
    (h : k' ≠ k) : dictGet (dictSet m k v) k' = dictGet m k' := by
  induction m with
  | nil =>
    simp only [dictSet, dictGet]
    rw [if_neg fun h' => h h'.symm]
  | cons hd tl ih =>
    obtain ⟨k₀, v₀⟩ := hd
    by_cases hk : k₀ = k
    · subst hk
      simp only [dictSet, if_pos rfl, dictGet]
      rw [if_neg fun h' => h h'.symm, if_neg fun h' => h h'.symm]
    · simp only [dictSet, if_neg hk, dictGet]
      by_cases hk' : k₀ = k'
      · rw [if_pos hk', if_pos hk']
      · rw [if_neg hk', if_neg hk', ih]

theorem applyValid_nil (stu : Student) : applyValid stu [] = stu := rfl

theorem applyValid_cons (stu : Student) (kv : String × ℚ)
    (rest : List (String × ℚ)) :
    applyValid stu (kv :: rest) =
      applyValid { stu with subjects := dictSet stu.subjects kv.1.pyStrip kv.2 } rest := rfl

theorem applyValid_id (stu : Student) (scores : List (String × ℚ)) :
    (applyValid stu scores).id = stu.id := by
  induction scores generalizing stu with
  | nil => rfl
  | cons kv rest ih => rw [applyValid_cons]; exact ih _

theorem applyValid_name (stu : Student) (scores : List (String × ℚ)) :
    (applyValid stu scores).name = stu.name := by
  induction scores generalizing stu with
  | nil => rfl
  | cons kv rest ih => rw [applyValid_cons]; exact ih _

theorem dictGet_applyValid_of_not_mem (stu : Student) (scores : List (String × ℚ))
    (key : String) (h : key ∉ scores.map (fun kv => kv.1.pyStrip)) :
    dictGet (applyValid stu scores).subjects key = dictGet stu.subjects key := by
  induction scores generalizing stu with
  | nil => rfl
  | cons kv rest ih =>
    simp only [List.map_cons, List.mem_cons, not_or] at h
    rw [applyValid_cons, ih _ h.2]
    exact dictGet_dictSet_ne _ _ _ _ h.1

theorem dictGet_applyValid_of_mem :
    ∀ (scores : List (String × ℚ)) (stu : Student),
      (scores.map (fun kv => kv.1.pyStrip)).Nodup →
      ∀ kv ∈ scores,
        dictGet (applyValid stu scores).subjects kv.1.pyStrip = some kv.2 := by
  intro scores
  induction scores with
  | nil => intro stu _ kv hkv; cases hkv
  | cons hd rest ih =>
    intro stu hnd kv hkv
    simp only [List.map_cons, List.nodup_cons] at hnd
    rcases List.mem_cons.mp hkv with heq | htl
    · subst heq
      rw [applyValid_cons,
        dictGet_applyValid_of_not_mem _ _ _ hnd.1,
        dictGet_dictSet_self]
    · rw [applyValid_cons]
      exact ih _ hnd.2 kv htl

theorem buildStudent_of_all_valid (stu : Student) (scores : List (String × ℚ))
    (h : ∀ kv ∈ scores, validScore kv.2) :
    buildStudent stu scores = .ok (applyValid stu scores) := by
  induction scores generalizing stu with
  | nil => rfl
  | cons kv rest ih =>
    obtain ⟨sub, sc⟩ := kv
    have hv : validScore sc := h _ (List.mem_cons_self _ _)
    rw [buildStudent, set_score_of_valid _ _ _ hv, applyValid_cons]
    exact ih _ fun kv hkv => h kv (List.mem_cons_of_mem _ hkv)

theorem buildStudent_of_first_invalid (stu : Student) (pre : List (String × ℚ))
    (k : String) (v : ℚ) (rest : List (String × ℚ))
    (hpre : ∀ kv ∈ pre, validScore kv.2) (hv : ¬ validScore v) :
    buildStudent stu (pre ++ (k, v) :: rest) =
      .error ("Score must be between 0 and 100.", applyValid stu pre) := by
  induction pre generalizing stu with
  | nil =>
    rw [List.nil_append, buildStudent, set_score_of_invalid _ _ _ hv, applyValid_nil]
  | cons kv₀ tl ih =>
    obtain ⟨sub, sc⟩ := kv₀
    have hv₀ : validScore sc := hpre _ (List.mem_cons_self _ _)
    rw [List.cons_append, buildStudent, set_score_of_valid _ _ _ hv₀, applyValid_cons]
    exact ih _ fun kv hkv => hpre kv (List.mem_cons_of_mem _ hkv)

theorem buildStudent_error_of_exists_invalid (stu : Student)
    (scores : List (String × ℚ)) (h : ∃ kv ∈ scores, ¬ validScore kv.2) :
    ∃ ep, buildStudent stu scores = .error ep := by
  induction scores generalizing stu with
  | nil => obtain ⟨kv, hkv, _⟩ := h; cases hkv
  | cons kv₀ rest ih =>
    obtain ⟨sub, sc⟩ := kv₀
    by_cases hv : validScore sc
    · rw [buildStudent, set_score_of_valid _ _ _ hv]
      refine ih _ ?_
      obtain ⟨kv, hkv, hbad⟩ := h
      rcases List.mem_cons.mp hkv with heq | htl
      · exact absurd (heq ▸ hv) hbad
      · exact ⟨kv, htl, hbad⟩
    · exact ⟨_, by rw [buildStudent, set_score_of_invalid _ _ _ hv]⟩

theorem foldl_max_le_init (is : List Int) (a : Int) : a ≤ is.foldl max a := by
  induction is generalizing a with
  | nil => exact le_refl a
  | cons i tl ih => exact le_trans (le_max_left a i) (ih (max a i))

theorem foldl_max_le_of_mem (is : List Int) (a i : Int) (h : i ∈ is) :
    i ≤ is.foldl max a := by
  induction is generalizing a with
  | nil => cases h
  | cons j tl ih =>
    rw [List.foldl_cons]
    rcases List.mem_cons.mp h with heq | htl
    · subst heq
      exact le_trans (le_max_right a i) (foldl_max_le_init tl (max a i))
    · exact ih (max a j) htl

theorem foldl_max_mem (is : List Int) (a : Int) :
    is.foldl max a = a ∨ is.foldl max a ∈ is := by
  induction is generalizing a with
  | nil => exact Or.inl rfl
  | cons i tl ih =>
    rcases ih (max a i) with h | h
    · rcases max_choice a i with hm | hm
      · exact Or.inl (by rw [List.foldl_cons, h, hm])
      · exact Or.inr (by rw [List.foldl_cons, h, hm]; exact List.mem_cons_self _ _)
    · exact Or.inr (List.mem_cons_of_mem _ h)

theorem filter_length_lt_iff_exists (l : List Student) (p : Student → Bool) :
    (l.filter p).length < l.length ↔ ∃ s ∈ l, p s = false := by
  induction l with
  | nil => simp
  | cons hd tl ih =>
    by_cases hp : p hd
    · simp only [List.filter_cons, if_pos hp, List.length_cons,
        Nat.add_lt_add_iff_right, List.mem_cons, ih]
      constructor
      · rintro ⟨s, hs, hfalse⟩; exact ⟨s, Or.inr hs, hfalse⟩
      · rintro ⟨s, (rfl | hs), hfalse⟩
        · exact absurd hp (by simp [hfalse])
        · exact ⟨s, hs, hfalse⟩
    · simp only [List.filter_cons, if_neg hp, List.length_cons]
      constructor
      · intro _
        exact ⟨hd, List.mem_cons_self _ _, Bool.of_not_eq_true hp⟩
      · intro _
        exact Nat.lt_of_le_of_lt (List.length_filter_le p tl) (Nat.lt_succ_self _)

theorem filter_eq_self_of_all (l : List Student) (p : Student → Bool)
    (h : ∀ s ∈ l, p s = true) : l.filter p = l := by
  induction l with
  | nil => rfl
  | cons hd tl ih =>
    rw [List.filter_cons, if_pos (h _ (List.mem_cons_self _ _)),
      ih fun s hs => h s (List.mem_cons_of_mem _ hs)]

example : validScore 50 := by decide
example : ¬ validScore 200 := by decide
example : (Student.init 1 " Ada ").name = "Ada" := by decide
example : (Student.mk 1 "S" [("A", 100), ("B", 50)]).average = 75 := by
  norm_num [Student.average]
  decide
example : (Student.mk 1 "S" [("A", 100), ("B", 50)]).grade = "B" := by
  have h : (Student.mk 1 "S" [("A", 100), ("B", 50)]).average = 75 := by
    norm_num [Student.average]
    decide
  norm_num [Student.grade, h]
example :
    GradeManager.init.add_student "Ada" [("Math", 50), ("Hist", 200)] =
      (GradeManager.init,
       .error ("Score must be between 0 and 100.",
               Student.mk 1 "Ada" [("Math", 50)])) := by decide

/-- Students of the `load (some data)` result: the deserialized records,
whether or not the array was empty. -/
theorem load_students_eq (gm : GradeManager) (data : List StudentRepr) :
    (gm.load (some data)).students = data.map Student.from_dict := by
  cases data with
  | nil => rfl
  | cons d ds => rfl

/-- Claim C5: for every Record, `set_score(subject, s)` with `s` outside
`[0, 100]` fails with the ValidationError and leaves the subjects mapping
unchanged; with `s` in `[0, 100]` it succeeds and afterwards the trimmed
subject key maps to exactly `s` (inserting or overwriting), with the id, the
name and every other subject entry untouched. -/
theorem set_score_spec (stu : Student) (subject : String) (score : ℚ) :
    (¬ validScore score →
      stu.set_score subject score = .error "Score must be between 0 and 100." ∧
      stu.set_score_state subject score = stu) ∧
    (validScore score →
      ∃ stu', stu.set_score subject score = .ok stu' ∧
        stu'.id = stu.id ∧ stu'.name = stu.name ∧
        dictGet stu'.subjects subject.pyStrip = some score ∧
        ∀ k, k ≠ subject.pyStrip →
          dictGet stu'.subjects k = dictGet stu.subjects k) := by
  constructor
  · intro h
    have he := set_score_of_invalid stu subject score h
    refine ⟨he, ?_⟩
    unfold Student.set_score_state
    rw [he]
  · intro h
    exact ⟨_, set_score_of_valid stu subject score h, rfl, rfl,
      dictGet_dictSet_self _ _ _, fun k hk => dictGet_dictSet_ne _ _ _ _ hk⟩

/-- Witness for `set_score_spec` at concrete inputs: score 200 raises, score
50 is stored under the stripped key. -/
theorem set_score_spec_witness :
    ((Student.mk 1 "Ada" []).set_score "Math" 200 =
      .error "Score must be between 0 and 100.") ∧
    (∃ stu', (Student.mk 1 "Ada" []).set_score " Math " 50 = .ok stu' ∧
      stu'.id = 1 ∧ stu'.name = "Ada" ∧
      dictGet stu'.subjects " Math ".pyStrip = some 50 ∧
      ∀ k, k ≠ " Math ".pyStrip →
        dictGet stu'.subjects k = dictGet (Student.mk 1 "Ada" []).subjects k) :=
  ⟨((set_score_spec (Student.mk 1 "Ada" []) "Math" 200).1 (by decide)).1,
   (set_score_spec (Student.mk 1 "Ada" []) " Math " 50).2 (by decide)⟩

/-- Claim C6: `grade()` is the step function of `average()` with bands
inclusive on the lower end: `>= 90` is "A", `[75, 90)` is "B", `[50, 75)` is
"C", below 50 is "Fail". -/
theorem grade_bands (stu : Student) :
    (90 ≤ stu.average → stu.grade = "A") ∧
    (75 ≤ stu.average ∧ stu.average < 90 → stu.grade = "B") ∧
    (50 ≤ stu.average ∧ stu.average < 75 → stu.grade = "C") ∧
    (stu.average < 50 → stu.grade = "Fail") := by
  unfold Student.grade
  refine ⟨fun h => ?_, fun h => ?_, fun h => ?_, fun h => ?_⟩
  · rw [if_pos h]
  · rw [if_neg (not_le.mpr h.2), if_pos h.1]
  · rw [if_neg (not_le.mpr (lt_trans h.2 (by norm_num))),
      if_neg (not_le.mpr h.2), if_pos h.1]
  · rw [if_neg (not_le.mpr (lt_trans h (by norm_num))),
      if_neg (not_le.mpr (lt_trans h (by norm_num))),
      if_neg (not_le.mpr h)]

/-- Witness for `grade_bands`: a student with no subjects has average 0, which
is below 50 and graded "Fail". -/
theorem grade_bands_witness :
    (Student.mk 7 "Zed" []).average < 50 ∧ (Student.mk 7 "Zed" []).grade = "Fail" :=
  ⟨by decide, (grade_bands (Student.mk 7 "Zed" [])).2.2.2 (by decide)⟩

/-- Claim C7: `average()` returns 0 for an empty subject map and otherwise the
arithmetic mean of the stored scores (stated multiplicatively:
`average * count = sum`); in particular on `{A: 100, B: 50}` it returns 75.
The function is pure: it reads `subjects` and touches nothing. -/
theorem average_spec (stu : Student) :
    (stu.subjects = [] → stu.average = 0) ∧
    (stu.subjects ≠ [] →
      stu.average * (stu.subjects.length : ℚ) = (stu.subjects.map Prod.snd).sum) ∧
    (Student.mk 1 "S" [("A", 100), ("B", 50)]).average = 75 := by
  refine ⟨fun h => ?_, fun h => ?_, ?_⟩
  · unfold Student.average
    rw [if_pos h]
  · unfold Student.average
    rw [if_neg h]
    have hlen : (stu.subjects.length : ℚ) ≠ 0 :=
      Nat.cast_ne_zero.mpr fun h0 => h (List.length_eq_zero.mp h0)
    exact div_mul_cancel₀ _ hlen
  · norm_num [Student.average]
    decide

/-- Witness for `average_spec`: a student with no subjects averages 0. -/
theorem average_spec_witness :
    (Student.mk 2 "Bo" []).subjects = [] ∧ (Student.mk 2 "Bo" []).average = 0 :=
  ⟨rfl, (average_spec (Student.mk 2 "Bo" [])).1 rfl⟩

/-- Claim C1: when `scores` contains an out-of-range entry, `add_student`
fails with the ValidationError, and the partially built Record — the local
`Student` at the raise point — holds exactly the entries earlier in the call
than the first invalid one (no atomic rollback). -/
theorem add_student_invalid_keeps_earlier_scores (gm : GradeManager)
    (name : String) (pre : List (String × ℚ)) (k : String) (v : ℚ)
    (rest : List (String × ℚ)) (hpre : ∀ kv ∈ pre, validScore kv.2)
    (hv : ¬ validScore v) :
    gm.add_student name (pre ++ (k, v) :: rest) =
      (gm, .error ("Score must be between 0 and 100.",
        applyValid (Student.init gm.next_id name) pre)) := by
  unfold GradeManager.add_student
  rw [buildStudent_of_first_invalid _ _ _ _ _ hpre hv]

/-- Witness for `add_student_invalid_keeps_earlier_scores`: adding with scores
`Math 50, Hist 200` raises, and the discarded record still carries
`Math 50`. -/
theorem add_student_invalid_keeps_earlier_scores_witness :
    GradeManager.init.add_student "Ada" [("Math", 50), ("Hist", 200)] =
      (GradeManager.init, .error ("Score must be between 0 and 100.",
        Student.mk 1 "Ada" [("Math", 50)])) :=
  add_student_invalid_keeps_earlier_scores GradeManager.init "Ada"
    [("Math", 50)] "Hist" 200 [] (by decide) (by decide)

/-- Claim C8 counterexample: `add_student` stores each entry under the
STRIPPED subject key, so with the in-range scores `{" Math": 10}` the created
record's subjects do not hold the entry under its given key `" Math"` — the
score sits under `"Math"` instead. -/
theorem add_student_entry_cex :
    GradeManager.init.add_student "Ada" [(" Math", 10)] =
      ({ students := [Student.mk 1 "Ada" [("Math", 10)]], next_id := 2 },
       .ok (Student.mk 1 "Ada" [("Math", 10)])) ∧
    dictGet (Student.mk 1 "Ada" [("Math", 10)]).subjects " Math" = none := by
  decide

/-- Claim C8 (amended): for all-valid scores, `add_student` creates a Record
with id = the current `next_id`, the trimmed name, and every entry of `scores`
stored under its trimmed subject key (when no two keys trim to the same
string); it appends the Record, increments `next_id`, and returns the
Record. -/
theorem add_student_valid_spec (gm : GradeManager) (name : String)
    (scores : List (String × ℚ)) (h : ∀ kv ∈ scores, validScore kv.2) :
    ∃ stu,
      gm.add_student name scores =
        ({ students := gm.students ++ [stu], next_id := gm.next_id + 1 },
         .ok stu) ∧
      stu.id = gm.next_id ∧
      stu.name = name.pyStrip ∧
      ((scores.map (fun kv => kv.1.pyStrip)).Nodup →
        ∀ kv ∈ scores, dictGet stu.subjects kv.1.pyStrip = some kv.2) := by
  refine ⟨applyValid (Student.init gm.next_id name) scores, ?_, ?_, ?_, ?_⟩
  · unfold GradeManager.add_student
    rw [buildStudent_of_all_valid _ _ h]
  · rw [applyValid_id]
    rfl
  · rw [applyValid_name]
    rfl
  · intro hnd kv hkv
    exact dictGet_applyValid_of_mem scores _ hnd kv hkv

/-- Witness for `add_student_valid_spec`: a fresh manager, an untrimmed name
and two valid scores. -/
theorem add_student_valid_spec_witness :
    (∀ kv ∈ [("Math", (95 : ℚ)), ("History", 88)], validScore kv.2) ∧
    ∃ stu,
      GradeManager.init.add_student " Ada " [("Math", 95), ("History", 88)] =
        ({ students := GradeManager.init.students ++ [stu],
           next_id := GradeManager.init.next_id + 1 }, .ok stu) ∧
      stu.id = GradeManager.init.next_id ∧
      stu.name = " Ada ".pyStrip ∧
      (([("Math", (95 : ℚ)), ("History", 88)].map
          (fun kv => kv.1.pyStrip)).Nodup →
        ∀ kv ∈ [("Math", (95 : ℚ)), ("History", 88)],
          dictGet stu.subjects kv.1.pyStrip = some kv.2) :=
  ⟨by decide,
   add_student_valid_spec GradeManager.init " Ada "
     [("Math", 95), ("History", 88)] (by decide)⟩

/-- Claim C10: a failing `add_student` leaves the manager itself unchanged —
the loop raises before `self.students.append` and `self._next_id += 1` run, so
the call returns the manager exactly as it was, with the error as outcome. -/
theorem add_student_invalid_manager_unchanged (gm : GradeManager)
    (name : String) (scores : List (String × ℚ))
    (h : ∃ kv ∈ scores, ¬ validScore kv.2) :
    (gm.add_student name scores).1 = gm ∧
    ∃ e p, (gm.add_student name scores).2 = .error (e, p) := by
  obtain ⟨ep, hb⟩ :=
    buildStudent_error_of_exists_invalid (Student.init gm.next_id name) scores h
  unfold GradeManager.add_student
  rw [hb]
  exact ⟨rfl, ep.1, ep.2, rfl⟩

/-- Witness for `add_student_invalid_manager_unchanged`: one out-of-range
score, the fresh manager is untouched. -/
theorem add_student_invalid_manager_unchanged_witness :
    (GradeManager.init.add_student "Bo" [("M", 200)]).1 = GradeManager.init ∧
    ∃ e p, (GradeManager.init.add_student "Bo" [("M", 200)]).2 = .error (e, p) :=
  add_student_invalid_manager_unchanged GradeManager.init "Bo" [("M", 200)]
    (by decide)

/-- Claim C2 counterexample: `load` on a nonexistent file returns with `self`
untouched, so a manager that already holds a record does NOT end up with an
empty collection. -/
theorem load_missing_file_cex :
    ((GradeManager.mk [Student.mk 1 "Ada" []] 2).load none).students ≠ [] := by
  decide

/-- Claim C2 (amended): `load` on a nonexistent file does not fail and leaves
the manager unchanged — the collection therefore stays empty exactly in the
fresh-start case, where it was already empty. -/
theorem load_missing_file_unchanged (gm : GradeManager) : gm.load none = gm :=
  rfl

/-- Claim C3 counterexample: loading an existing file holding the empty JSON
array does not reset `next_id` to 1 — the `if self.students:` guard skips the
recomputation, so a manager whose counter was 5 keeps 5. -/
theorem load_empty_array_cex :
    ((GradeManager.mk [] 5).load (some [])).students = [] ∧
    ((GradeManager.mk [] 5).load (some [])).next_id = 5 ∧
    ((GradeManager.mk [] 5).load (some [])).next_id ≠ 1 := by
  decide

/-- Claim C3 (amended): `load` on a JSON array replaces the collection with
the deserialized Records; when at least one record was loaded, `next_id`
becomes one past the maximum loaded id, and when none were loaded (empty
array) `next_id` keeps its previous value. -/
theorem load_array_spec (gm : GradeManager) (data : List StudentRepr) :
    ((gm.load (some data)).students = data.map Student.from_dict) ∧
    (data = [] → (gm.load (some data)).next_id = gm.next_id) ∧
    (data ≠ [] →
      (∀ s ∈ (gm.load (some data)).students,
        s.id < (gm.load (some data)).next_id) ∧
      (∃ s ∈ (gm.load (some data)).students,
        s.id + 1 = (gm.load (some data)).next_id)) := by
  cases data with
  | nil =>
    exact ⟨rfl, fun _ => rfl, fun h => absurd rfl h⟩
  | cons d ds =>
    have hstu : (gm.load (some (d :: ds))).students =
        Student.from_dict d :: ds.map Student.from_dict := rfl
    have hnext : (gm.load (some (d :: ds))).next_id =
        ((ds.map Student.from_dict).map Student.id).foldl max
          (Student.from_dict d).id + 1 := rfl
    refine ⟨rfl, fun h => absurd h (List.cons_ne_nil d ds), fun _ => ⟨?_, ?_⟩⟩
    · intro s hs
      rw [hstu] at hs
      rw [hnext, Int.lt_add_one_iff]
      rcases List.mem_cons.mp hs with heq | htl
      · exact heq ▸ foldl_max_le_init _ _
      · exact foldl_max_le_of_mem _ _ _ (List.mem_map_of_mem Student.id htl)
    · rw [hstu, hnext]
      rcases foldl_max_mem ((ds.map Student.from_dict).map Student.id)
        (Student.from_dict d).id with hhd | hmem
      · exact ⟨Student.from_dict d, List.mem_cons_self _ _, by rw [hhd]⟩
      · obtain ⟨s, hs, hid⟩ := List.mem_map.mp hmem
        exact ⟨s, List.mem_cons_of_mem _ hs, by rw [hid]⟩

/-- Witness for `load_array_spec`: loading a one-element array into a manager
with counter 5 replaces the collection and sets the counter to 4. -/
theorem load_array_spec_witness :
    (([⟨3, "Bo", some [("M", 80)]⟩] : List StudentRepr) ≠ []) ∧
    ((GradeManager.mk [] 5).load
        (some [⟨3, "Bo", some [("M", 80)]⟩])).students =
      [⟨3, "Bo", some [("M", 80)]⟩].map Student.from_dict ∧
    (∀ s ∈ ((GradeManager.mk [] 5).load
        (some [⟨3, "Bo", some [("M", 80)]⟩])).students,
      s.id < ((GradeManager.mk [] 5).load
        (some [⟨3, "Bo", some [("M", 80)]⟩])).next_id) ∧
    (∃ s ∈ ((GradeManager.mk [] 5).load
        (some [⟨3, "Bo", some [("M", 80)]⟩])).students,
      s.id + 1 = ((GradeManager.mk [] 5).load
        (some [⟨3, "Bo", some [("M", 80)]⟩])).next_id) :=
  ⟨by decide,
   (load_array_spec (GradeManager.mk [] 5) [⟨3, "Bo", some [("M", 80)]⟩]).1,
   ((load_array_spec (GradeManager.mk [] 5)
      [⟨3, "Bo", some [("M", 80)]⟩]).2.2 (by decide)).1,
   ((load_array_spec (GradeManager.mk [] 5)
      [⟨3, "Bo", some [("M", 80)]⟩]).2.2 (by decide)).2⟩

/-- Round trip of one record through the JSON shape, provided its name is
already stripped (true of every record the manager creates). -/
theorem from_dict_to_dict (s : Student) (hs : s.name.pyStrip = s.name) :
    Student.from_dict s.to_dict = s := by
  cases s with
  | mk i n subj =>
    simp only [Student.to_dict, Student.from_dict, Student.init,
      Option.getD_some] at hs ⊢
    rw [hs]

/-- Mapping save-then-parse over a list of records with stripped names is the
identity. -/
theorem map_from_dict_to_dict (l : List Student)
    (h : ∀ s ∈ l, s.name.pyStrip = s.name) :
    l.map (Student.from_dict ∘ Student.to_dict) = l := by
  induction l with
  | nil => rfl
  | cons hd tl ih =>
    rw [List.map_cons, Function.comp_apply,
      from_dict_to_dict hd (h hd (List.mem_cons_self _ _)),
      ih fun s hs => h s (List.mem_cons_of_mem _ hs)]

/-- Claim C4 counterexample: `from_dict` re-strips the name, so a collection
holding a record whose stored name has leading whitespace is not reproduced by
save-then-load. -/
theorem save_load_roundtrip_cex :
    (GradeManager.init.load
        (some (GradeManager.mk [Student.mk 1 " Ada" []] 2).save)).students ≠
      (GradeManager.mk [Student.mk 1 " Ada" []] 2).students := by
  decide

/-- Claim C4 (amended): for every collection of Records whose names carry no
leading or trailing whitespace — which holds for every Record the manager
creates, since names are stripped at creation — saving and then loading (into
any manager) reproduces an equal ordered sequence of Records: same length and
order, identical ids, names and subject maps. -/
theorem save_load_roundtrip (gm gm' : GradeManager)
    (h : ∀ s ∈ gm.students, s.name.pyStrip = s.name) :
    (gm'.load (some gm.save)).students = gm.students := by
  unfold GradeManager.save
  rw [load_students_eq, List.map_map]
  exact map_from_dict_to_dict gm.students h

/-- Witness for `save_load_roundtrip`: a record with a stripped name survives
the round trip into a different, nonempty manager. -/
theorem save_load_roundtrip_witness :
    (∀ s ∈ (GradeManager.mk [Student.mk 1 "Ada" [("Math", 95)]] 2).students,
      s.name.pyStrip = s.name) ∧
    ((GradeManager.mk [Student.mk 9 "Q" []] 3).load
        (some (GradeManager.mk [Student.mk 1 "Ada" [("Math", 95)]] 2).save)).students =
      (GradeManager.mk [Student.mk 1 "Ada" [("Math", 95)]] 2).students :=
  ⟨by decide,
   save_load_roundtrip (GradeManager.mk [Student.mk 1 "Ada" [("Math", 95)]] 2)
     (GradeManager.mk [Student.mk 9 "Q" []] 3) (by decide)⟩

/-- Claim C9 counterexample: `delete` filters out EVERY record with the given
id, not just the first. On a collection with two records of id 2 — reachable,
since `load` performs no uniqueness validation — both are removed, where
removing only the first would leave the second. -/
theorem delete_duplicate_ids_cex :
    ((GradeManager.mk [Student.mk 2 "A" [], Student.mk 2 "B" []] 3).delete 2).1.students
      = [] ∧
    ((GradeManager.mk [Student.mk 2 "A" [], Student.mk 2 "B" []] 3).delete 2).1.students
      ≠ [Student.mk 2 "B" []] := by
  decide

/-- Claim C9 (amended): `delete(id)` removes every Record whose id matches —
equivalently the first such Record whenever ids are unique — and returns
whether a removal occurred; `next_id` is never changed, and when no Record
matches the manager is left entirely unchanged and `false` is returned. -/
theorem delete_spec (gm : GradeManager) (sid : Int) :
    ((gm.delete sid).1.students = gm.students.filter (fun s => s.id ≠ sid)) ∧
    ((gm.delete sid).1.next_id = gm.next_id) ∧
    ((gm.delete sid).2 = true ↔ ∃ s ∈ gm.students, s.id = sid) ∧
    ((gm.delete sid).2 = false → (gm.delete sid).1 = gm) := by
  obtain ⟨studs, nid⟩ := gm
  refine ⟨rfl, rfl, ?_, ?_⟩
  · rw [show ((GradeManager.mk studs nid).delete sid).2 =
        decide ((studs.filter (fun s => s.id ≠ sid)).length < studs.length)
      from rfl, decide_eq_true_iff, filter_length_lt_iff_exists]
    constructor
    · rintro ⟨s, hs, hfalse⟩
      exact ⟨s, hs, not_not.mp (of_decide_eq_false hfalse)⟩
    · rintro ⟨s, hs, heq⟩
      exact ⟨s, hs, decide_eq_false (not_not_intro heq)⟩
  · intro hfalse
    have hnlt : ¬ ((studs.filter (fun s => s.id ≠ sid)).length < studs.length) :=
      of_decide_eq_false hfalse
    have hall : ∀ s ∈ studs, (fun s => decide (s.id ≠ sid)) s = true := by
      intro s hs
      by_contra hcon
      exact hnlt ((filter_length_lt_iff_exists _ _).mpr
        ⟨s, hs, Bool.not_eq_true _ ▸ hcon⟩)
    show GradeManager.mk (studs.filter (fun s => s.id ≠ sid)) nid =
      GradeManager.mk studs nid
    rw [filter_eq_self_of_all _ _ hall]

/-- Witness for `delete_spec`: deleting an id that is absent returns `false`
and leaves the manager unchanged. -/
theorem delete_spec_witness :
    ((GradeManager.mk [Student.mk 1 "Ada" []] 2).delete 5).2 = false ∧
    ((GradeManager.mk [Student.mk 1 "Ada" []] 2).delete 5).1 =
      GradeManager.mk [Student.mk 1 "Ada" []] 2 :=
  ⟨by decide, (delete_spec (GradeManager.mk [Student.mk 1 "Ada" []] 2) 5).2.2.2
    (by decide)⟩
